import Mathlib

/-!
Shallow embedding of the open_in_editor script: the URI parser (parse_uri)
and the editor dispatch table (open_editor with its launch strategies),
together with models of the Python standard-library routines the script
calls: urllib.parse.urlparse, urllib.parse.unquote, urllib.parse.parse_qsl,
str.rsplit, int() on strings, and shlex.quote.

Strings are modelled as lists of characters.  Two deliberate
approximations of CPython, neither of which any verified property below
depends on: percent-decoding is modelled byte-by-byte (CPython reassembles
multi-byte UTF-8 escape runs, which only changes the decoding of
characters above ASCII, never the placement of colons, slashes or query
delimiters), and int() accepts only ASCII digits (CPython also accepts
Unicode decimal digits).

urlparse is modelled as urlsplit: the extra params-splitting step of
urlparse applies only when the parsed scheme is in the uses_params list
(http, ftp, ..., or the empty scheme); the scheme this program registers
and accepts is editor, which is not in that list, and for every other
scheme parse_uri raises before the path is ever used, so params-splitting
is unreachable here.
-/

namespace OpenInEditor

/-- Python strings, modelled as lists of characters. -/
abbrev Str := List Char

/-- The single-quote character, ASCII 39. -/
def squote : Char := Char.ofNat 39

/-- The double-quote character, ASCII 34. -/
def dquote : Char := Char.ofNat 34

/-- The registered protocol name: PROTOCOL_NAME = editor. -/
def PROTOCOL_NAME : Str := ("editor").data

/-- Index of the first character satisfying a predicate, as in str.find. -/
def findIdxC (pred : Char → Bool) : Str → Option Nat
  | [] => none
  | c :: rest => if pred c then some 0 else (findIdxC pred rest).map (· + 1)

/-- str.split(sep, 1) for a present separator: split at the first occurrence,
returning the pieces before and after it; none when the separator is absent. -/
def splitOnFirstC (sep : Char) (s : Str) : Str × Str :=
  match findIdxC (fun c => c == sep) s with
  | some i => (s.take i, s.drop (i + 1))
  | none => (s, [])

/-- str.split(sep) with a one-character separator: every occurrence splits. -/
def splitChar (sep : Char) : Str → List Str
  | [] => [[]]
  | c :: rest =>
    if c == sep then [] :: splitChar sep rest
    else
      match splitChar sep rest with
      | h :: t => (c :: h) :: t
      | [] => [[c]]

/-- str.rsplit(sep, maxsplit=1): split at the last occurrence of the
separator when there is one, otherwise return the whole string. -/
def rsplit1 (sep : Char) (s : Str) : List Str :=
  match s.reverse.dropWhile (fun c => !(c == sep)) with
  | [] => [s]
  | _ :: bRev => [bRev.reverse, (s.reverse.takeWhile (fun c => !(c == sep))).reverse]

/-- ASCII lowercasing, as applied by urlsplit to the scheme (the scheme has
already been checked to be ASCII at that point). -/
def pyLower (s : Str) : Str := s.map Char.toLower

/-- The characters urlsplit allows in a scheme. -/
def schemeChar (c : Char) : Bool := c.isAlpha || c.isDigit || c == '+' || c == '-' || c == '.'

/-- The sanitisation urlsplit applies first: strip leading C0-control or
space characters, then remove every tab, carriage return and newline. -/
def sanitizeUrl (s : Str) : Str :=
  (s.dropWhile (fun c => c.toNat ≤ 32)).filter (fun c => !(c == '\t' || c == '\r' || c == '\n'))

/-- The scheme-extraction step of urlsplit: a scheme is a non-empty prefix
before the first colon that starts with an ASCII letter and consists of
scheme characters only; it is returned lowercased, with the remainder
after the colon.  Otherwise the scheme is empty and the input unchanged. -/
def extractScheme (url : Str) : Str × Str :=
  match findIdxC (fun c => c == ':') url with
  | some i =>
    if 0 < i ∧ (url.headD ' ').isAlpha ∧ (url.take i).all schemeChar then
      (pyLower (url.take i), url.drop (i + 1))
    else ([], url)
  | none => ([], url)

/-- The netloc-splitting step of urlsplit (applied after a leading //):
the netloc runs up to the first slash, question mark or hash. -/
def splitNetloc (s : Str) : Str × Str :=
  match findIdxC (fun c => c == '/' || c == '?' || c == '#') s with
  | some i => (s.take i, s.drop i)
  | none => (s, [])

/-- The parsed components returned by urlparse, the ones this program reads. -/
structure SplitResult where
  scheme : Str
  netloc : Str
  path : Str
  query : Str
  fragment : Str

/-- The message of the ValueError urlsplit raises on an unbalanced square
bracket in the netloc. -/
def invalidIPv6Msg : Str := ("Invalid IPv6 URL").data

/-- The part of urlsplit after sanitisation: extract the scheme, split off
the netloc after a leading //, reject unbalanced square brackets in the
netloc, then split off the fragment at the first hash and the query at
the first question mark. -/
def urlsplitCore (u : Str) : Except Str SplitResult :=
  let sr := extractScheme u
  let nl := if sr.2.take 2 = ['/', '/'] then splitNetloc (sr.2.drop 2) else ([], sr.2)
  if (nl.1.contains '[' && !(nl.1.contains ']')) || (nl.1.contains ']' && !(nl.1.contains '[')) then
    Except.error invalidIPv6Msg
  else
    let fr := splitOnFirstC '#' nl.2
    let pq := splitOnFirstC '?' fr.1
    Except.ok ⟨sr.1, nl.1, pq.1, pq.2, fr.2⟩

/-- urllib.parse.urlsplit: sanitise, then split. -/
def urlsplit (url : Str) : Except Str SplitResult := urlsplitCore (sanitizeUrl url)

/-- urllib.parse.urlparse as used here; see the module comment for why the
params-splitting step of urlparse never applies to this program. -/
def urlparse (url : Str) : Except Str SplitResult := urlsplit url

/-- Is the character an ASCII hexadecimal digit. -/
def isHexD (c : Char) : Bool :=
  if c.isDigit then true
  else if 97 ≤ c.toNat ∧ c.toNat ≤ 102 then true
  else if 65 ≤ c.toNat ∧ c.toNat ≤ 70 then true
  else false

/-- Value of an ASCII hexadecimal digit. -/
def hexVal (c : Char) : Nat :=
  if c.isDigit then c.toNat - 48
  else if 97 ≤ c.toNat then c.toNat - 87
  else c.toNat - 55

/-- Single left-to-right pass for unquote, consuming one character per
step.  The first argument is the scanning state: none when no escape is
pending, some none right after a percent sign, some (some a) after a
percent sign and one hex digit a.  A pending percent sign whose escape
fails to complete is emitted verbatim; a hex digit already consumed by a
failed escape cannot itself open an escape (it is not a percent sign), so
it is emitted directly and scanning continues. -/
def unquoteAux : Option (Option Char) → Str → Str
  | none, [] => []
  | none, c :: rest =>
    if c == '%' then unquoteAux (some none) rest else c :: unquoteAux none rest
  | some none, [] => ['%']
  | some none, c :: rest =>
    if isHexD c then unquoteAux (some (some c)) rest
    else if c == '%' then '%' :: unquoteAux (some none) rest
    else '%' :: c :: unquoteAux none rest
  | some (some a), [] => ['%', a]
  | some (some a), c :: rest =>
    if isHexD c then Char.ofNat (16 * hexVal a + hexVal c) :: unquoteAux none rest
    else if c == '%' then '%' :: a :: unquoteAux (some none) rest
    else '%' :: a :: c :: unquoteAux none rest

/-- urllib.parse.unquote, byte-by-byte: a percent sign followed by two hex
digits becomes the character with that code; any other percent sign is
kept verbatim and scanning resumes right after it. -/
def unquote (s : Str) : Str := unquoteAux none s

/-- The plus-to-space replacement parse_qsl applies before unquoting. -/
def plusToSpace (s : Str) : Str := s.map (fun c => if c == '+' then ' ' else c)

/-- urllib.parse.parse_qsl with its default arguments: split the query on
ampersands; drop empty fields, fields without an equals sign, and fields
whose value is empty; replace plus by space and percent-decode both the
name and the value of each kept field. -/
def parse_qsl (qs : Str) : List (Str × Str) :=
  let segs := if qs = [] then [] else splitChar '&' qs
  segs.filterMap (fun nv =>
    if nv = [] then none
    else
      match findIdxC (fun c => c == '=') nv with
      | none => none
      | some i =>
        let v := nv.drop (i + 1)
        if v = [] then none
        else some (unquote (plusToSpace (nv.take i)), unquote (plusToSpace v)))

/-- Lookup in dict(pairs): later bindings of a key overwrite earlier ones. -/
def dictGetStr (pairs : List (Str × Str)) (k : Str) : Option Str :=
  pairs.foldl (fun acc p => if p.1 == k then some p.2 else acc) none

/-- Whitespace as stripped by int() on strings (ASCII fragment). -/
def pySpace (c : Char) : Bool :=
  c == ' ' || c == '\t' || c == '\n' || c == '\r' || c.toNat == 11 || c.toNat == 12

/-- Strip leading and trailing whitespace. -/
def pyStrip (s : Str) : Str := ((s.dropWhile pySpace).reverse.dropWhile pySpace).reverse

/-- Value of an ASCII decimal digit. -/
def digitVal (c : Char) : Nat := c.toNat - 48

/-- Digit-group parsing for int(): after a first digit, further digits may
be separated by single underscores; an underscore must be followed by a
digit and must not end the group. -/
def pyDigitsAux : Nat → Str → Option Nat
  | acc, [] => some acc
  | acc, c :: rest =>
    if c.isDigit then pyDigitsAux (10 * acc + digitVal c) rest
    else if c == '_' then
      match rest with
      | d :: rest2 => if d.isDigit then pyDigitsAux (10 * acc + digitVal d) rest2 else none
      | [] => none
    else none

/-- A non-empty digit group for int(): must start with a digit. -/
def pyDigits : Str → Option Nat
  | [] => none
  | c :: rest => if c.isDigit then pyDigitsAux (digitVal c) rest else none

/-- int() applied to a string (ASCII fragment): strip whitespace, allow one
optional sign, then a digit group; none models the ValueError. -/
def pyInt (s : Str) : Option Int :=
  match pyStrip s with
  | '+' :: rest => (pyDigits rest).map (fun n => (n : Int))
  | '-' :: rest => (pyDigits rest).map (fun n => -(n : Int))
  | rest => (pyDigits rest).map (fun n => (n : Int))

/-- The failure modes of parse_uri: the RuntimeError raised through error()
on a scheme mismatch, the uncaught ValueError from int() on a malformed
line query value, and the ValueError urlsplit itself can raise. -/
inductive ParseErr
  | invalidScheme (msg : Str)
  | invalidLine (s : Str)
  | valueErrorUrl (msg : Str)

/-- The query key carrying the line number. -/
def lineKey : Str := ("line").data

/-- The message of the RuntimeError error() raises on a scheme mismatch. -/
def protoErrMsg (uri : Str) : Str := ("Unexpected protocol ").data ++ uri

/-- The body of parse_uri after urlparse succeeded: reject a scheme other
than PROTOCOL_NAME, percent-decode the path, then determine the line
number: a line query key wins (its malformed value is a fatal ValueError);
otherwise split the decoded path at its last colon and keep the split
only when the part after the colon parses as an integer. -/
def decodeTarget (uri : Str) (pr : SplitResult) : Except ParseErr (Str × Option Int) :=
  if pr.scheme = PROTOCOL_NAME then
    match dictGetStr (parse_qsl pr.query) lineKey with
    | some ls =>
      match pyInt ls with
      | some n => Except.ok (unquote pr.path, some n)
      | none => Except.error (ParseErr.invalidLine ls)
    | none =>
      match rsplit1 ':' (unquote pr.path) with
      | [b, a] =>
        match pyInt a with
        | some n => Except.ok (b, some n)
        | none => Except.ok (unquote pr.path, none)
      | _ => Except.ok (unquote pr.path, none)
  else Except.error (ParseErr.invalidScheme (protoErrMsg uri))

/-- Parse the URI and decode the target. -/
def parse_uri (uri : Str) : Except ParseErr (Str × Option Int) :=
  match urlparse uri with
  | Except.error m => Except.error (ParseErr.valueErrorUrl m)
  | Except.ok pr => decodeTarget uri pr

/-- The observable effects of one invocation: the notify-send messages
posted, the argument vectors handed to check_call in order, and the
message of the uncaught exception when one is raised.  Launch failures of
the spawned processes themselves are the external collaborator and are
not modelled: a recorded call is a call that was issued. -/
structure Outcome where
  notes : List Str := []
  calls : List (List Str) := []
  err : Option Str := none

/-- notify(what): post a user-visible notification. -/
def notifyO (what : Str) : Outcome := { notes := [what] }

/-- error(what): notify, then raise RuntimeError(what). -/
def errorO (what : Str) : Outcome := { notes := [what], err := some what }

/-- One successful check_call. -/
def callO (cmd : List Str) : Outcome := { calls := [cmd] }

/-- Sequencing of two effectful steps: a raised exception in the first
aborts the second, exactly as an uncaught Python exception would. -/
def seqO (a b : Outcome) : Outcome :=
  match a.err with
  | some _ => a
  | none => { notes := a.notes ++ b.notes, calls := a.calls ++ b.calls, err := b.err }

/-- The system state the dispatcher consults: which executables
shutil.which can find. -/
structure Env where
  which : Str → Bool

/-- The argument list with_line places after the editor binary: a
plus-prefixed line argument first when a line number is present, then
the path. -/
def with_line (uri : Str) (line : Option Int) : List Str :=
  match line with
  | none => [uri]
  | some l => ['+' :: (toString l).data, uri]

/-- Is the character in the set shlex.quote leaves unquoted: ASCII word
characters and the punctuation @ % + = : , . - and the slash. -/
def shlexSafeChar (c : Char) : Bool :=
  c.isAlpha || c.isDigit || c == '_' || c == '@' || c == '%' || c == '+' || c == '=' ||
    c == ':' || c == ',' || c == '.' || c == '/' || c == '-'

/-- shlex.quote: the empty string becomes a pair of single quotes, a string
of safe characters is returned unchanged, anything else is wrapped in
single quotes with every embedded single quote escaped. -/
def shlex_quote (s : Str) : Str :=
  if s = [] then [squote, squote]
  else if s.all shlexSafeChar then s
  else squote :: (s.flatMap (fun c =>
    if c == squote then [squote, dquote, squote, dquote, squote] else [c])) ++ [squote]

/-- Run x-terminal-emulator -e with the
shell-quoted, space-joined command line as the single command argument. -/
def launch_in_terminal (cmd : List Str) : Outcome :=
  callO [("x-terminal-emulator").data, ("-e").data, List.intercalate [' '] (cmd.map shlex_quote)]

/-- The vim strategy, open_vim: vim, the optional plus-line, the path,
inside a terminal. -/
def open_vim (uri : Str) (line : Option Int) : Outcome :=
  launch_in_terminal (("vim").data :: with_line uri line)

/-- The gvim strategy, open_gvim: gvim with the same argument shape, no
terminal wrapper. -/
def open_gvim (uri : Str) (line : Option Int) : Outcome :=
  callO (("gvim").data :: with_line uri line)

/-- The emacs strategy, open_emacs: emacsclient with a new frame and an
empty alternate editor so a daemon auto-starts, then the same argument
shape, no terminal. -/
def open_emacs (uri : Str) (line : Option Int) : Outcome :=
  callO ([("emacsclient").data, ("--create-frame").data,
    ("--alternate-editor=").data ++ [dquote, dquote]] ++ with_line uri line)

/-- The message error() receives when neither xdg-open nor open exists. -/
def noOpenerMsg : Str :=
  ("No xdg-open/open found, can").data ++ [squote] ++
    ("t figure out default editor. Fallback to vim!").data

/-- The system-default strategy, open_default: try xdg-open then open,
invoking the first one found with
just the path, the line number unused.  When neither exists, error() is
invoked and then open_vim; error() raises, so the sequencing through seqO
makes the vim call unreachable, exactly as in the source. -/
def open_default (env : Env) (uri : Str) (line : Option Int) : Outcome :=
  match [("xdg-open").data, ("open").data].find? (fun c => env.which c) with
  | some c => callO [c, uri]
  | none => seqO (errorO noOpenerMsg) (open_vim uri line)

/-- The launch strategies registered in the EDITORS table. -/
inductive Strategy
  | emacs
  | vim
  | gvim
  | sysdefault

/-- The EDITORS table: editor identifier to launch strategy. -/
def EDITORS : List (Str × Strategy) :=
  [(("emacs").data, Strategy.emacs), (("vim").data, Strategy.vim),
   (("gvim").data, Strategy.gvim), (("default").data, Strategy.sysdefault)]

/-- Dictionary lookup, EDITORS.get(editor, None). -/
def dictGetStrat (k : Str) : Option Strategy :=
  (EDITORS.find? (fun p => p.1 == k)).map (fun p => p.2)

/-- Run one launch strategy on a decoded target. -/
def runStrategy (env : Env) (s : Strategy) (uri : Str) (line : Option Int) : Outcome :=
  match s with
  | Strategy.emacs => open_emacs uri line
  | Strategy.vim => open_vim uri line
  | Strategy.gvim => open_gvim uri line
  | Strategy.sysdefault => open_default env uri line

/-- The warning notified for an unknown editor identifier. -/
def unknownEditorMsg (editor : Str) : Str :=
  ("Unexpected editor ").data ++ editor ++ ("! Falling back to vim").data

/-- The effect of a parse_uri failure as seen by open_editor: a scheme
mismatch went through error(), so it has already notified; the two
ValueError kinds propagate without a notification. -/
def parseFail (e : ParseErr) : Outcome :=
  match e with
  | ParseErr.invalidScheme msg => { notes := [msg], err := some msg }
  | ParseErr.invalidLine s => { err := some (("invalid literal for int: ").data ++ s) }
  | ParseErr.valueErrorUrl m => { err := some m }

/-- Dispatch of one invocation, open_editor: parse the URI, look the
editor up in EDITORS, warn and
fall back to the vim strategy when it is unknown, then run the strategy
on the decoded path and line. -/
def open_editor (env : Env) (uri : Str) (editor : Str) : Outcome :=
  match parse_uri uri with
  | Except.error e => parseFail e
  | Except.ok (path, line) =>
    match dictGetStrat editor with
    | some strat => runStrategy env strat path line
    | none => seqO (notifyO (unknownEditorMsg editor)) (open_vim path line)

/-- Discriminator: did parse_uri fail through error() with the scheme
mismatch RuntimeError. -/
def failedWithInvalidScheme (r : Except ParseErr (Str × Option Int)) : Bool :=
  match r with
  | Except.error (ParseErr.invalidScheme _) => true
  | _ => false

/-- Does the trailing-colon heuristic fail to extract a line from this
string: true when there is no colon, or when the segment after the last
colon is not an int() integer. -/
def noColonLine (p : Str) : Bool :=
  match rsplit1 ':' p with
  | [_, a] => (pyInt a).isNone
  | _ => true

/-- A system with no opener binaries at all. -/
def envNone : Env := ⟨fun _ => false⟩

/-- A system where only xdg-open exists. -/
def envXdg : Env := ⟨fun c => c == ("xdg-open").data⟩

/-- A system where only open exists. -/
def envOpenOnly : Env := ⟨fun c => c == ("open").data⟩

/-- The vim argument list as the specification words it: the editor
binary, then the optional plus-prefixed line, then the path. -/
def vimArgvAsSpecified (uri : Str) (line : Option Int) : List Str :=
  [("vim").data] ++ (match line with
    | some n => ['+' :: (toString n).data]
    | none => []) ++ [uri]

/-! Helper lemmas about the list-level building blocks. -/

theorem takeWhile_all_cons (p : Char → Bool) (l1 : Str) (c : Char) (l2 : Str)
    (h1 : ∀ x ∈ l1, p x = true) (hc : p c = false) :
    (l1 ++ c :: l2).takeWhile p = l1 := by
  induction l1 with
  | nil => simp [List.takeWhile_cons, hc]
  | cons x xs ih =>
    have hx : p x = true := h1 x (List.mem_cons_self x xs)
    simp [List.takeWhile_cons, hx, ih (fun y hy => h1 y (List.mem_cons_of_mem x hy))]

theorem dropWhile_all_cons (p : Char → Bool) (l1 : Str) (c : Char) (l2 : Str)
    (h1 : ∀ x ∈ l1, p x = true) (hc : p c = false) :
    (l1 ++ c :: l2).dropWhile p = c :: l2 := by
  induction l1 with
  | nil => simp [List.dropWhile_cons, hc]
  | cons x xs ih =>
    have hx : p x = true := h1 x (List.mem_cons_self x xs)
    simp [List.dropWhile_cons, hx, ih (fun y hy => h1 y (List.mem_cons_of_mem x hy))]

theorem dropWhile_head_false (p : Char → Bool) (l : Str) (x : Char) (xs : Str)
    (h : l.dropWhile p = x :: xs) : p x = false := by
  induction l with
  | nil => simp [List.dropWhile] at h
  | cons y ys ih =>
    by_cases hy : p y
    · rw [List.dropWhile_cons_of_pos hy] at h
      exact ih h
    · rw [List.dropWhile_cons_of_neg hy] at h
      injection h with h1 h2
      subst h1
      exact Bool.eq_false_iff.mpr hy

/-- rsplit(sep, 1) on a string not containing the separator returns the
whole string. -/
theorem rsplit1_of_not_mem (sep : Char) (s : Str) (h : sep ∉ s) : rsplit1 sep s = [s] := by
  have hnil : s.reverse.dropWhile (fun c => !(c == sep)) = [] := by
    rw [List.dropWhile_eq_nil_iff]
    intro x hx
    have : x ≠ sep := by
      intro he
      exact h (he ▸ (List.mem_reverse.mp hx))
    simp [this]
  unfold rsplit1
  rw [hnil]

/-- rsplit(sep, 1) splits exactly at the last separator. -/
theorem rsplit1_last (sep : Char) (b a : Str) (h : sep ∉ a) :
    rsplit1 sep (b ++ sep :: a) = [b, a] := by
  have hrev : (b ++ sep :: a).reverse = a.reverse ++ sep :: b.reverse := by
    simp
  have hall : ∀ x ∈ a.reverse, (fun c => !(c == sep)) x = true := by
    intro x hx
    have : x ≠ sep := by
      intro he
      exact h (he ▸ (List.mem_reverse.mp hx))
    simp [this]
  have hsep : (fun c => !(c == sep)) sep = false := by simp
  unfold rsplit1
  rw [hrev, dropWhile_all_cons _ _ _ _ hall hsep, takeWhile_all_cons _ _ _ _ hall hsep]
  simp

/-- Inversion for rsplit(sep, 1): a two-piece result decomposes the input
at a last occurrence of the separator. -/
theorem rsplit1_sound (sep : Char) (s b a : Str) (h : rsplit1 sep s = [b, a]) :
    s = b ++ sep :: a ∧ sep ∉ a := by
  unfold rsplit1 at h
  cases hd : s.reverse.dropWhile (fun c => !(c == sep)) with
  | nil =>
    rw [hd] at h
    simp at h
  | cons x bRev =>
    rw [hd] at h
    injection h with h1 h2
    injection h2 with h2 h3
    have hx : (fun c => !(c == sep)) x = false := dropWhile_head_false _ _ _ _ hd
    have hxs : x = sep := by simpa using hx
    have hsplit : s.reverse.takeWhile (fun c => !(c == sep)) ++ (x :: bRev) = s.reverse := by
      rw [← hd]
      exact List.takeWhile_append_dropWhile _ _
    have hs : s = bRev.reverse ++ sep :: (s.reverse.takeWhile (fun c => !(c == sep))).reverse := by
      have := congrArg List.reverse hsplit
      simpa [hxs, List.append_assoc] using this.symm
    constructor
    · rw [hs, h1, h2]
    · rw [← h2]
      intro hmem
      have : sep ∈ s.reverse.takeWhile (fun c => !(c == sep)) := List.mem_reverse.mp hmem
      have := List.mem_takeWhile_imp this
      simp at this

/-- str.find via findIdxC: no match means none. -/
theorem findIdxC_none (pred : Char → Bool) (l : Str) (h : ∀ c ∈ l, pred c = false) :
    findIdxC pred l = none := by
  induction l with
  | nil => rfl
  | cons c rest ih =>
    have hc := h c (List.mem_cons_self c rest)
    simp [findIdxC, hc, ih (fun y hy => h y (List.mem_cons_of_mem c hy))]

/-- One-step reduction of unquote at a character other than percent. -/
theorem unquote_cons_ne (c : Char) (rest : Str) (hc : (c == '%') = false) :
    unquote (c :: rest) = c :: unquote rest := by
  simp [unquote, unquoteAux, hc]

/-- unquote is the identity on strings without a percent sign. -/
theorem unquote_no_percent (s : Str) (h : ∀ c ∈ s, ¬ c = '%') : unquote s = s := by
  induction s with
  | nil => rfl
  | cons c rest ih =>
    have hc : (c == '%') = false := by
      simpa using h c (List.mem_cons_self c rest)
    rw [unquote_cons_ne c rest hc, ih (fun y hy => h y (List.mem_cons_of_mem c hy))]

/-- Folding the dict-construction update over fields none of which bind the
key leaves the accumulator unchanged. -/
theorem foldl_dict_skip (k : Str) (ps : List (Str × Str)) (acc : Option Str)
    (h : ∀ p ∈ ps, (p.1 == k) = false) :
    ps.foldl (fun acc p => if p.1 == k then some p.2 else acc) acc = acc := by
  induction ps generalizing acc with
  | nil => rfl
  | cons q rest ih =>
    have hq := h q (List.mem_cons_self q rest)
    rw [List.foldl_cons]
    rw [if_neg (by simp [hq])]
    exact ih acc (fun y hy => h y (List.mem_cons_of_mem q hy))

/-- dict lookup returns the value of the last binding of the key. -/
theorem dictGetStr_append_last (k v : Str) (l1 l2 : List (Str × Str))
    (h2 : ∀ p ∈ l2, (p.1 == k) = false) :
    dictGetStr (l1 ++ (k, v) :: l2) k = some v := by
  unfold dictGetStr
  rw [List.foldl_append, List.foldl_cons]
  rw [if_pos (by simp)]
  exact foldl_dict_skip k l2 (some v) h2

/-! Branch lemmas for parse_uri. -/

/-- When the parsed query carries a line key, parse_uri converts its value
with int() and returns the full decoded path, never splitting it. -/
theorem parse_uri_query_some (uri : Str) (pr : SplitResult) (ls : Str)
    (hu : urlparse uri = Except.ok pr) (hs : pr.scheme = PROTOCOL_NAME)
    (hq : dictGetStr (parse_qsl pr.query) lineKey = some ls) :
    parse_uri uri = (match pyInt ls with
      | some n => Except.ok (unquote pr.path, some n)
      | none => Except.error (ParseErr.invalidLine ls)) := by
  unfold parse_uri
  rw [hu]
  show decodeTarget uri pr = _
  unfold decodeTarget
  rw [if_pos hs, hq]

/-- When the parsed query carries no line key, parse_uri applies the
trailing-colon heuristic to the decoded path. -/
theorem parse_uri_query_none (uri : Str) (pr : SplitResult)
    (hu : urlparse uri = Except.ok pr) (hs : pr.scheme = PROTOCOL_NAME)
    (hq : dictGetStr (parse_qsl pr.query) lineKey = none) :
    parse_uri uri = (match rsplit1 ':' (unquote pr.path) with
      | [b, a] =>
        match pyInt a with
        | some n => Except.ok (b, some n)
        | none => Except.ok (unquote pr.path, none)
      | _ => Except.ok (unquote pr.path, none)) := by
  unfold parse_uri
  rw [hu]
  show decodeTarget uri pr = _
  unfold decodeTarget
  rw [if_pos hs, hq]

/-! Claim theorems. -/

/-- Claim C2: for every URI whose parsed query string binds the line key,
parse_uri takes the line number from that value through int() (a malformed
value is an InvalidLineNumber failure) and the trailing-colon heuristic is
not applied at all: the decoded path is returned undivided, even when it
ends in a colon followed by digits. -/
theorem claim_C2 (uri : Str) (pr : SplitResult) (ls : Str)
    (hu : urlparse uri = Except.ok pr) (hs : pr.scheme = PROTOCOL_NAME)
    (hq : dictGetStr (parse_qsl pr.query) lineKey = some ls) :
    (∀ n, pyInt ls = some n → parse_uri uri = Except.ok (unquote pr.path, some n)) ∧
    (pyInt ls = none → parse_uri uri = Except.error (ParseErr.invalidLine ls)) := by
  have h := parse_uri_query_some uri pr ls hu hs hq
  constructor
  · intro n hn
    rw [h, hn]
  · intro hn
    rw [h, hn]

/-- Claim C2 witness: a path ending in a colon and digits together with a
line query key is returned undivided with the query value as the line. -/
theorem claim_C2_witness :
    parse_uri (("editor:///path/to/file:99?line=10").data) =
      Except.ok ((("/path/to/file:99").data), some 10) :=
  (claim_C2 (("editor:///path/to/file:99?line=10").data)
    ⟨("editor").data, [], ("/path/to/file:99").data, ("line=10").data, []⟩
    (("10").data) rfl rfl rfl).1 10 rfl

/-- Claim C5: for every accepted URI without a line query key, the split
attempt is made at the last colon of the decoded path only: with no colon
the path is returned whole without a line; at the last colon, an integer
right-hand segment becomes the line and the left-hand segment the path,
and a non-integer right-hand segment leaves the whole decoded path with
no line, no earlier colon being tried. -/
theorem claim_C5 (uri : Str) (pr : SplitResult)
    (hu : urlparse uri = Except.ok pr) (hs : pr.scheme = PROTOCOL_NAME)
    (hq : dictGetStr (parse_qsl pr.query) lineKey = none) :
    ((':' ∉ unquote pr.path) → parse_uri uri = Except.ok (unquote pr.path, none)) ∧
    (∀ b a, unquote pr.path = b ++ ':' :: a → ':' ∉ a →
      ((∀ n, pyInt a = some n → parse_uri uri = Except.ok (b, some n)) ∧
       (pyInt a = none → parse_uri uri = Except.ok (unquote pr.path, none)))) := by
  have h := parse_uri_query_none uri pr hu hs hq
  constructor
  · intro hnc
    rw [h, rsplit1_of_not_mem ':' _ hnc]
  · intro b a hdec hna
    rw [hdec] at h
    rw [rsplit1_last ':' b a hna] at h
    constructor
    · intro n hn
      refine h.trans ?_
      show (match pyInt a with
        | some n => Except.ok (b, some n)
        | none => Except.ok (b ++ ':' :: a, none)) = Except.ok (b, some n)
      rw [hn]
    · intro hn
      rw [hdec]
      refine h.trans ?_
      show (match pyInt a with
        | some n => Except.ok (b, some n)
        | none => Except.ok (b ++ ':' :: a, none)) = Except.ok (b ++ ':' :: a, none)
      rw [hn]

/-- Claim C5 witness: a path with two colons and a non-integer final
segment stays whole, with no fallback to the earlier colon. -/
theorem claim_C5_witness :
    parse_uri (("editor:///path/to/file:oops/and:more").data) =
      Except.ok ((("/path/to/file:oops/and:more").data), none) :=
  ((claim_C5 (("editor:///path/to/file:oops/and:more").data)
    ⟨("editor").data, [], ("/path/to/file:oops/and:more").data, [], []⟩
    rfl rfl rfl).2 (("/path/to/file:oops/and").data) (("more").data)
    rfl (by decide)).2 rfl

/-- Claim C9: when the parsed query string binds the line key more than
once, the pairs are collapsed into a dictionary where later bindings
overwrite earlier ones, so the value of the last binding is the one
converted into the line number. -/
theorem claim_C9 (uri : Str) (pr : SplitResult) (l1 l2 : List (Str × Str)) (v : Str)
    (hu : urlparse uri = Except.ok pr) (hs : pr.scheme = PROTOCOL_NAME)
    (hqsl : parse_qsl pr.query = l1 ++ (lineKey, v) :: l2)
    (hlast : ∀ p ∈ l2, (p.1 == lineKey) = false)
    (_htwice : ∃ p ∈ l1, p.1 = lineKey) :
    (∀ n, pyInt v = some n → parse_uri uri = Except.ok (unquote pr.path, some n)) ∧
    (pyInt v = none → parse_uri uri = Except.error (ParseErr.invalidLine v)) := by
  have hq : dictGetStr (parse_qsl pr.query) lineKey = some v := by
    rw [hqsl]
    exact dictGetStr_append_last lineKey v l1 l2 hlast
  have h := parse_uri_query_some uri pr v hu hs hq
  constructor
  · intro n hn
    rw [h, hn]
  · intro hn
    rw [h, hn]

/-- Claim C9 witness: with line=3 and then line=4 in the query, the line
number is 4. -/
theorem claim_C9_witness :
    parse_uri (("editor:///f?line=3&line=4").data) =
      Except.ok ((("/f").data), some 4) :=
  (claim_C9 (("editor:///f?line=3&line=4").data)
    ⟨("editor").data, [], ("/f").data, ("line=3&line=4").data, []⟩
    [(lineKey, ("3").data)] [] (("4").data) rfl rfl rfl
    (by intro p hp; exact absurd hp (List.not_mem_nil p))
    ⟨(lineKey, ("3").data), by simp, rfl⟩).1 4 rfl

/-- Claim C10: for every accepted URI without a line query key whose
decoded path ends in a colon, the right-hand segment of the single split
attempt is empty, which int() rejects, so the decoded path is returned
unchanged, trailing colon included, with no line number. -/
theorem claim_C10 (uri : Str) (pr : SplitResult) (q : Str)
    (hu : urlparse uri = Except.ok pr) (hs : pr.scheme = PROTOCOL_NAME)
    (hq : dictGetStr (parse_qsl pr.query) lineKey = none)
    (hpath : unquote pr.path = q ++ [':']) :
    parse_uri uri = Except.ok (unquote pr.path, none) := by
  have h := parse_uri_query_none uri pr hu hs hq
  rw [hpath] at h
  rw [rsplit1_last ':' q [] (by simp)] at h
  rw [hpath]
  exact h.trans rfl

/-- Claim C10 witness: a path ending in a bare colon is kept verbatim. -/
theorem claim_C10_witness :
    parse_uri (("editor:///path/to/file:").data) =
      Except.ok ((("/path/to/file:").data), none) :=
  claim_C10 (("editor:///path/to/file:").data)
    ⟨("editor").data, [], ("/path/to/file:").data, [], []⟩
    (("/path/to/file").data) rfl rfl rfl rfl

/-- Claim C3 as the code actually behaves (amended): for every accepted
URI, the returned path is the percent-decode of the parsed path component,
either whole (always so when the line came from the query string, or when
no line was extracted) or with its final colon-plus-integer segment
removed when the line came from the trailing-colon heuristic.  The
original claim, that a populated line implies the path does not end in a
colon followed by the line, is refuted by the counterexample. -/
theorem claim_C3 (uri : Str) (pr : SplitResult) (p : Str) (l : Option Int)
    (hu : urlparse uri = Except.ok pr) (hp : parse_uri uri = Except.ok (p, l)) :
    p = unquote pr.path ∨
      (dictGetStr (parse_qsl pr.query) lineKey = none ∧
       ∃ a n, pyInt a = some n ∧ l = some n ∧ unquote pr.path = p ++ ':' :: a ∧ ':' ∉ a) := by
  unfold parse_uri at hp
  rw [hu] at hp
  replace hp : decodeTarget uri pr = Except.ok (p, l) := hp
  unfold decodeTarget at hp
  by_cases hs : pr.scheme = PROTOCOL_NAME
  · rw [if_pos hs] at hp
    cases hq : dictGetStr (parse_qsl pr.query) lineKey with
    | some ls =>
      rw [hq] at hp
      have hp2 : (match pyInt ls with
        | some n => Except.ok (unquote pr.path, some n)
        | none => Except.error (ParseErr.invalidLine ls)) = Except.ok (p, l) := hp
      cases hn : pyInt ls with
      | some n =>
        rw [hn] at hp2
        have hp3 : (Except.ok (unquote pr.path, some n) : Except ParseErr (Str × Option Int)) =
            Except.ok (p, l) := hp2
        injection hp3 with h1
        exact Or.inl (congrArg Prod.fst h1).symm
      | none =>
        rw [hn] at hp2
        have hp3 : (Except.error (ParseErr.invalidLine ls) : Except ParseErr (Str × Option Int)) =
            Except.ok (p, l) := hp2
        simp at hp3
    | none =>
      rw [hq] at hp
      cases hr : rsplit1 ':' (unquote pr.path) with
      | nil =>
        rw [hr] at hp
        have hp2 : (Except.ok (unquote pr.path, none) : Except ParseErr (Str × Option Int)) =
            Except.ok (p, l) := hp
        injection hp2 with h1
        exact Or.inl (congrArg Prod.fst h1).symm
      | cons b t =>
        cases t with
        | nil =>
          rw [hr] at hp
          have hp2 : (Except.ok (unquote pr.path, none) : Except ParseErr (Str × Option Int)) =
              Except.ok (p, l) := hp
          injection hp2 with h1
          exact Or.inl (congrArg Prod.fst h1).symm
        | cons a t2 =>
          cases t2 with
          | nil =>
            rw [hr] at hp
            have hp2 : (match pyInt a with
              | some n => Except.ok (b, some n)
              | none => Except.ok (unquote pr.path, none)) = Except.ok (p, l) := hp
            have hsound := rsplit1_sound ':' (unquote pr.path) b a hr
            cases hn : pyInt a with
            | some n =>
              rw [hn] at hp2
              have hp3 : (Except.ok (b, some n) : Except ParseErr (Str × Option Int)) =
                  Except.ok (p, l) := hp2
              injection hp3 with h1
              have hb : b = p := congrArg Prod.fst h1
              have hl : l = some n := (congrArg Prod.snd h1).symm
              exact Or.inr ⟨rfl, a, n, hn, hl, hb ▸ hsound.1, hsound.2⟩
            | none =>
              rw [hn] at hp2
              have hp3 : (Except.ok (unquote pr.path, none) : Except ParseErr (Str × Option Int)) =
                  Except.ok (p, l) := hp2
              injection hp3 with h1
              exact Or.inl (congrArg Prod.fst h1).symm
          | cons c t3 =>
            rw [hr] at hp
            have hp2 : (Except.ok (unquote pr.path, none) : Except ParseErr (Str × Option Int)) =
                Except.ok (p, l) := hp
            injection hp2 with h1
            exact Or.inl (congrArg Prod.fst h1).symm
  · rw [if_neg hs] at hp
    have hp2 : (Except.error (ParseErr.invalidScheme (protoErrMsg uri)) :
        Except ParseErr (Str × Option Int)) = Except.ok (p, l) := hp
    simp at hp2

/-- Claim C3 counterexample: with a line query key, the returned path keeps
its trailing colon-and-digits segment, so it ends in a colon followed by
exactly the populated line number; the original invariant is false. -/
theorem claim_C3_counterexample :
    parse_uri (("editor:///path/to/file:10?line=10").data) =
      Except.ok ((("/path/to/file").data ++ ':' :: (toString (10 : Int)).data), some 10) := rfl

/-- Claim C3 witness: at editor:///path/to/file:10 the amended invariant
holds with the right disjunct, the heuristic having stripped the suffix. -/
theorem claim_C3_witness :
    ("/path/to/file").data =
        unquote (("/path/to/file:10").data) ∨
      (dictGetStr (parse_qsl ([] : Str)) lineKey = none ∧
       ∃ a n, pyInt a = some n ∧ (some 10 : Option Int) = some n ∧
         unquote (("/path/to/file:10").data) = ("/path/to/file").data ++ ':' :: a ∧ ':' ∉ a) :=
  claim_C3 (("editor:///path/to/file:10").data)
    ⟨("editor").data, [], ("/path/to/file:10").data, [], []⟩
    (("/path/to/file").data) (some 10) rfl rfl


/-- Claim C6 as the code actually behaves (amended): for every input that
the URI splitter parses without raising (in particular, no unbalanced
square bracket in the authority component) and whose parsed scheme
differs from editor, parse_uri fails with the InvalidScheme error and
returns no target.  The original universally quantified claim is refuted
by the counterexample, where the splitter itself raises ValueError before
the scheme is ever compared. -/
theorem claim_C6 (uri : Str) (pr : SplitResult)
    (hu : urlparse uri = Except.ok pr) (hs : pr.scheme ≠ PROTOCOL_NAME) :
    parse_uri uri = Except.error (ParseErr.invalidScheme (protoErrMsg uri)) := by
  unfold parse_uri
  rw [hu]
  show decodeTarget uri pr = _
  unfold decodeTarget
  rw [if_neg hs]

/-- Claim C6 counterexample: badmime with an unbalanced bracket in the
authority fails with the ValueError of the URI splitter, not with
InvalidScheme, although its scheme differs from editor. -/
theorem claim_C6_counterexample :
    parse_uri (("badmime://[").data) = Except.error (ParseErr.valueErrorUrl invalidIPv6Msg) ∧
    failedWithInvalidScheme (parse_uri (("badmime://[").data)) = false :=
  ⟨rfl, rfl⟩

/-- Claim C6 witness: badmime://whatever fails with InvalidScheme. -/
theorem claim_C6_witness :
    parse_uri (("badmime://whatever").data) =
      Except.error (ParseErr.invalidScheme (protoErrMsg (("badmime://whatever").data))) :=
  claim_C6 (("badmime://whatever").data)
    ⟨("badmime").data, ("whatever").data, [], [], []⟩ rfl (by decide)

/-- urlparse of the editor scheme wrapped around a clean absolute path:
the path comes back whole, with empty netloc, query and fragment. -/
theorem urlparse_wrap (t : Str)
    (hclean : ∀ c ∈ ('/' :: t : Str), ¬(c = '?' ∨ c = '#' ∨ c = '\t' ∨ c = '\r' ∨ c = '\n')) :
    urlparse (("editor://").data ++ '/' :: t) =
      Except.ok ⟨("editor").data, [], '/' :: t, [], []⟩ := by
  have hsan : sanitizeUrl (("editor://").data ++ '/' :: t) = ("editor://").data ++ '/' :: t := by
    unfold sanitizeUrl
    rw [show List.dropWhile (fun c => decide (c.toNat ≤ 32)) (("editor://").data ++ '/' :: t)
        = ("editor://").data ++ '/' :: t from rfl]
    rw [List.filter_append]
    rw [show List.filter (fun c => !(c == '\t' || c == '\r' || c == '\n')) (("editor://").data)
        = ("editor://").data from rfl]
    congr 1
    rw [List.filter_eq_self]
    intro a ha
    have h2 := hclean a ha
    simp only [not_or] at h2
    simp [h2.2.2.1, h2.2.2.2.1, h2.2.2.2.2]
  have hfr : splitOnFirstC '#' ('/' :: t) = ('/' :: t, []) := by
    have hidx : findIdxC (fun c => c == '#') ('/' :: t) = none :=
      findIdxC_none _ _ (fun c hc => by
        have h2 := hclean c hc
        simp only [not_or] at h2
        simp [h2.2.1])
    unfold splitOnFirstC
    rw [hidx]
  have hqm : splitOnFirstC '?' ('/' :: t) = ('/' :: t, []) := by
    have hidx : findIdxC (fun c => c == '?') ('/' :: t) = none :=
      findIdxC_none _ _ (fun c hc => by
        have h2 := hclean c hc
        simp only [not_or] at h2
        simp [h2.1])
    unfold splitOnFirstC
    rw [hidx]
  have h1 : urlparse (("editor://").data ++ '/' :: t) = urlsplitCore (("editor://").data ++ '/' :: t) := by
    show urlsplitCore (sanitizeUrl (("editor://").data ++ '/' :: t)) = _
    rw [hsan]
  rw [h1]
  show Except.ok ⟨("editor").data, [],
      (splitOnFirstC '?' (splitOnFirstC '#' ('/' :: t)).1).1,
      (splitOnFirstC '?' (splitOnFirstC '#' ('/' :: t)).1).2,
      (splitOnFirstC '#' ('/' :: t)).2⟩ =
    Except.ok (⟨("editor").data, [], '/' :: t, [], []⟩ : SplitResult)
  rw [hfr]
  show Except.ok ⟨("editor").data, [],
      (splitOnFirstC '?' ('/' :: t)).1, (splitOnFirstC '?' ('/' :: t)).2, []⟩ =
    Except.ok (⟨("editor").data, [], '/' :: t, [], []⟩ : SplitResult)
  rw [hqm]


/-- Claim C4 as the code actually behaves (amended): re-parsing a
previously returned path, re-wrapped in the scheme prefix, yields no line
number provided the path is empty or absolute, contains no question mark,
hash, percent sign, tab, carriage return or newline, and does not itself
end in a colon followed by an int() integer.  Without these provisos the
round trip can extract a line again: the counterexample re-parses the
path returned for editor:///a:10:10 and obtains line 10. -/
theorem claim_C4 (uri p : Str) (l : Option Int)
    (_hp : parse_uri uri = Except.ok (p, l))
    (hhead : p = [] ∨ ∃ t, p = '/' :: t)
    (hclean : ∀ c ∈ p, ¬(c = '?' ∨ c = '#' ∨ c = '%' ∨ c = '\t' ∨ c = '\r' ∨ c = '\n'))
    (hnl : noColonLine p = true) :
    parse_uri (("editor://").data ++ p) = Except.ok (p, none) := by
  rcases hhead with rfl | ⟨t, rfl⟩
  · rfl
  · have hup : urlparse (("editor://").data ++ '/' :: t) =
        Except.ok ⟨("editor").data, [], '/' :: t, [], []⟩ :=
      urlparse_wrap t (fun c hc => by
        have h2 := hclean c hc
        simp only [not_or] at h2 ⊢
        exact ⟨h2.1, h2.2.1, h2.2.2.2.1, h2.2.2.2.2.1, h2.2.2.2.2.2⟩)
    have h := parse_uri_query_none _ _ hup rfl rfl
    have hdecode : unquote ('/' :: t) = '/' :: t :=
      unquote_no_percent _ (fun c hc => by
        have h2 := hclean c hc
        simp only [not_or] at h2
        exact h2.2.2.1)
    rw [show (⟨("editor").data, [], '/' :: t, [], []⟩ : SplitResult).path = '/' :: t from rfl,
      hdecode] at h
    unfold noColonLine at hnl
    cases hr : rsplit1 ':' ('/' :: t) with
    | nil =>
      rw [hr] at h
      exact h.trans rfl
    | cons b t2 =>
      cases t2 with
      | nil =>
        rw [hr] at h
        exact h.trans rfl
      | cons a t3 =>
        cases t3 with
        | cons c t4 =>
          rw [hr] at h
          exact h.trans rfl
        | nil =>
          rw [hr] at h
          rw [hr] at hnl
          have hnl2 : (pyInt a).isNone = true := hnl
          have hpy : pyInt a = none := Option.isNone_iff_eq_none.mp hnl2
          have h2 : parse_uri (("editor://").data ++ '/' :: t) = (match pyInt a with
            | some n => Except.ok (b, some n)
            | none => Except.ok ('/' :: t, none)) := h
          rw [hpy] at h2
          exact h2.trans rfl

/-- Claim C4 counterexample: the path returned for editor:///a:10:10 still
ends in a colon and digits, and re-parsing it wrapped in the scheme
prefix extracts line 10 instead of none. -/
theorem claim_C4_counterexample :
    parse_uri (("editor:///a:10:10").data) = Except.ok ((("/a:10").data), some 10) ∧
    parse_uri (("editor://").data ++ ("/a:10").data) = Except.ok ((("/a").data), some 10) :=
  ⟨rfl, rfl⟩

/-- Claim C4 witness: the path returned for editor:///some/file:12
re-parses with no line number. -/
theorem claim_C4_witness :
    parse_uri (("editor://").data ++ ("/some/file").data) =
      Except.ok ((("/some/file").data), none) :=
  claim_C4 (("editor:///some/file:12").data) (("/some/file").data) (some 12)
    rfl (Or.inr ⟨("some/file").data, rfl⟩) (by decide) (by decide)


/-- Claim C1, the behaviour the code actually has at the claimed failing
configuration: with an opener present, open_default invokes it with just
the path for every line value (the line number is ignored); with neither
xdg-open nor open present, error() notifies and raises, and no further
command is issued: the open_vim fallback on the next source line is dead
code, so the invocation aborts instead of falling back to vim. -/
theorem claim_C1 (uri : Str) (line : Option Int) :
    open_default envXdg uri line =
      { notes := [], calls := [[("xdg-open").data, uri]], err := none } ∧
    open_default envOpenOnly uri line =
      { notes := [], calls := [[("open").data, uri]], err := none } ∧
    open_default envNone uri line =
      { notes := [noOpenerMsg], calls := [], err := some noOpenerMsg } :=
  ⟨rfl, rfl, rfl⟩

/-- Claim C7: dispatching an editor identifier absent from the EDITORS
table notifies a warning and runs the vim strategy on the decoded target;
the dispatch step itself raises nothing. -/
theorem claim_C7 (env : Env) (uri editor path : Str) (line : Option Int)
    (hp : parse_uri uri = Except.ok (path, line))
    (hu : dictGetStrat editor = none) :
    open_editor env uri editor =
      { notes := [unknownEditorMsg editor], calls := (open_vim path line).calls,
        err := none } := by
  unfold open_editor
  rw [hp, hu]
  rfl

/-- Claim C7 witness: the unknown editor nano falls back to vim. -/
theorem claim_C7_witness :
    open_editor envNone (("editor:///f:3").data) (("nano").data) =
      { notes := [unknownEditorMsg (("nano").data)],
        calls := (open_vim (("/f").data) (some 3)).calls, err := none } :=
  claim_C7 envNone (("editor:///f:3").data) (("nano").data) (("/f").data) (some 3) rfl rfl


/-- Claim C8: for every target, the vim strategy issues exactly one call:
the terminal emulator binary, its -e flag, and the space-joined
shell-quoted argument list consisting of the editor binary, the optional
+line argument, and the path, in that order; nothing is raised. -/
theorem claim_C8 (uri : Str) (line : Option Int) :
    open_vim uri line =
      { notes := [], calls := [[("x-terminal-emulator").data, ("-e").data,
          List.intercalate [' '] ((vimArgvAsSpecified uri line).map shlex_quote)]],
        err := none } := by
  cases line <;> rfl

/-! Mirrors of the assertions in the self-test suite test_parse_uri. -/

/-- Self-test 1: a plain absolute path. -/
theorem test_parse_uri_plain :
    parse_uri (("editor:///path/to/file").data) =
      Except.ok ((("/path/to/file").data), none) := rfl

/-- Self-test 2: a path with a literal space. -/
theorem test_parse_uri_space :
    parse_uri (("editor:///path/with spaces").data) =
      Except.ok ((("/path/with spaces").data), none) := rfl

/-- Self-test 3: a percent-encoded path. -/
theorem test_parse_uri_encoded :
    parse_uri (("editor:///path/url%20encoded").data) =
      Except.ok ((("/path/url encoded").data), none) := rfl

/-- Self-test 4: a trailing colon-number is stripped into the line. -/
theorem test_parse_uri_colon :
    parse_uri (("editor:///path/to/file:10").data) =
      Except.ok ((("/path/to/file").data), some 10) := rfl

/-- Self-test 5: the line query key. -/
theorem test_parse_uri_query :
    parse_uri (("editor:///path/to/file?line=10").data) =
      Except.ok ((("/path/to/file").data), some 10) := rfl

/-- Self-test 6: a non-numeric segment after the last colon leaves the
path whole. -/
theorem test_parse_uri_oops :
    parse_uri (("editor:///path/to/file:oops/and:more").data) =
      Except.ok ((("/path/to/file:oops/and:more").data), none) := rfl

/-- Self-test 7: a foreign scheme is rejected. -/
theorem test_parse_uri_badmime :
    parse_uri (("badmime://whatever").data) =
      Except.error (ParseErr.invalidScheme (protoErrMsg (("badmime://whatever").data))) := rfl

end OpenInEditor
